import Mathlib

/-!
A shallow embedding of the `jsonld-helper` reader core
(`src/reader/JsonLDReader.ts` together with its `utils/read` helper).

Design of the embedding:

* JSON fragments are modelled by the inductive `JsonLD.Value`
  (strings, integer numbers, booleans, arrays, objects).  Strings are
  modelled as `List Char` so that the character-level splitting done by
  the source (`key.split('#')`, `key.split('/')`) can be reasoned about
  directly.  Object fields are an association list in insertion order,
  mirroring `Object.keys` enumeration order of a JavaScript object
  (JavaScript objects have pairwise distinct keys).  Expanded JSON-LD
  documents contain no `null` literals, so `null` data is not modelled;
  the JavaScript values `undefined` (and the `null` returned by
  `Nothing.get`) arise only as *results* and are modelled by `Option`.

* A JavaScript computation that can crash with a `TypeError` (for
  example `extractType` applied to a number, whose `value.split` call
  fails) is modelled with an outer `Option`: `none` is the crash.

* `JsonLDReader` instances are modelled by `JsonLD.Reader`: the
  `Present` variant holds the wrapped fragment (an `Option Value`,
  because the TypeScript constructor accepts `undefined`), the `Absent`
  variant (class `Nothing`) holds the stored diagnostic message.
-/

namespace JsonLD

/-- Characters of a JavaScript string, in order. -/
abbrev Str := List Char

/-- A JSON fragment as handled by the reader: the expanded JSON-LD data
model (no `null`, integer numerics). -/
inductive Value where
  | str (s : Str)
  | num (n : Int)
  | bool (b : Bool)
  | arr (elems : List Value)
  | obj (fields : List (Str × Value))

/-- Fields of a node-object, in insertion order. -/
abbrev Obj := List (Str × Value)

/-- JavaScript property lookup `scope[k]` on an object: the value bound
to `k`, or `undefined` (`none`) when the key is absent.  JavaScript
object keys are pairwise distinct, so taking the first binding is
exact. -/
def lookupKey (scope : Obj) (k : Str) : Option Value :=
  (scope.find? (fun kv => kv.1 == k)).map (·.2)

/-- JavaScript `String.prototype.split` with a one-character separator:
`splitOnChar c s` is the list of (possibly empty) chunks of `s`
delimited by `c`.  It is never empty: `[[]]` on the empty string. -/
def splitOnChar (c : Char) : Str → List Str
  | [] => [[]]
  | x :: xs =>
    match splitOnChar c xs with
    | [] => [[x]]
    | y :: ys => if x = c then [] :: y :: ys else (x :: y) :: ys

/-- The selector given to `read`: a string key or a numeric index. -/
inductive Sel where
  | key (k : Str)
  | idx (i : Nat)
deriving DecidableEq, Repr

/-- A `JsonLDReader`: `present` is an ordinary instance wrapping its
`value` field (`none` models the JavaScript `undefined`), `absent` is a
`Nothing` instance carrying its single stored diagnostic. -/
inductive Reader where
  | present (value : Option Value)
  | absent (err : Str)

end JsonLD

namespace JsonLD

/-- Diagnostic message of the `Not an object` failure. -/
def notAnObjectE : Str := "Not an object".toList

/-- Diagnostic message of the `Not an array` failure. -/
def notAnArrayE : Str := "Not an array".toList

/-- Diagnostic message of the `Not found key` failure. -/
def notFoundKeyE (k : Str) : Str := "Not found key: ".toList ++ k

/-- Diagnostic message of the `Not found index` failure. -/
def notFoundIndexE (i : Nat) : Str := "Not found index: ".toList ++ (Nat.repr i).toList

/-- The string step of `extractType`: `value.split('#')` has exactly two
chunks → second chunk; else `value.split('/')` has one chunk → the value
unchanged; else the last `/`-chunk. -/
def extractTypeStr (s : Str) : Str :=
  let hashSplit := splitOnChar '#' s
  if hashSplit.length = 2 then hashSplit.getD 1 []
  else
    let slashSplit := splitOnChar '/' s
    if slashSplit.length = 1 then s
    else slashSplit.getLastD []

/-- `extractType` from `utils/read`: recurse into `value[0]` on arrays,
return `value['@value']` on other objects, else split the string.  The
outer `Option` is `none` when the JavaScript code raises a `TypeError`
(`value.split` on a number/boolean, or recursion into `undefined` on an
empty array); the inner `Option` is `none` when the returned property is
`undefined` (object without `'@value'`). -/
def extractType : Value → Option (Option Value)
  | .arr [] => none
  | .arr (v :: _) => extractType v
  | .obj kvs => some (lookupKey kvs "@value".toList)
  | .str s => some (some (.str (extractTypeStr s)))
  | .num _ => none
  | .bool _ => none

/-- `readType` from `utils/read`: `scope['@type']` if defined, else the
first key whose `split('#')[1]` chunk is `type`; the found value goes
through `extractType`.  Result: `none` = crash, `some none` = not
founded, `some (some w)` = founded with value `w`. -/
def readType (scope : Obj) : Option (Option (Option Value)) :=
  match lookupKey scope "@type".toList with
  | some v => (extractType v).map some
  | none =>
    match scope.find? (fun kv => (splitOnChar '#' kv.1).get? 1 == some "type".toList) with
    | some kv => (extractType kv.2).map some
    | none => some none

/-- `readId` from `utils/read`: `scope['@id']` if defined, else the first
key whose `split('#')[1]` chunk is `id`.  `none` = not founded. -/
def readId (scope : Obj) : Option Value :=
  match lookupKey scope "@id".toList with
  | some v => some v
  | none => (scope.find? (fun kv => (splitOnChar '#' kv.1).get? 1 == some "id".toList)).map (·.2)

/-- `readValue` from `utils/read`: `scope['@value']` if defined, else the
first key whose `split('#')[1]` chunk is `value`.  `none` = not founded. -/
def readValue (scope : Obj) : Option Value :=
  match lookupKey scope "@value".toList with
  | some v => some v
  | none => (scope.find? (fun kv => (splitOnChar '#' kv.1).get? 1 == some "value".toList)).map (·.2)

/-- `readAsPreDefinedKey` from `utils/read`: try the reserved relational
key fast paths in order (type, id, value; two spellings each).  Result:
`none` = crash (only the type path can crash), `some none` = not
founded, `some (some w)` = founded.  The source uses three sequential
`if` blocks; the spellings are pairwise distinct, so the chain below is
the same control flow. -/
def readAsPreDefinedKey (scope : Obj) (key : Str) : Option (Option (Option Value)) :=
  if key = "type".toList ∨ key = "@type".toList then readType scope
  else if key = "id".toList ∨ key = "@id".toList then
    match readId scope with
    | some v => some (some (some v))
    | none => some none
  else if key = "value".toList ∨ key = "@value".toList then
    match readValue scope with
    | some v => some (some (some v))
    | none => some none
  else some none

/-- `getFullKey` from `utils/read`: first key whose `split('#')[1]` chunk
equals the short key, else first key whose last `split('/')` chunk
equals it.  The source searches `Object.keys(scope)` and then indexes
`scope[fullKey]`; returning the matched binding directly is the same
because a JavaScript object's keys are pairwise distinct. -/
def getFullKey (scope : Obj) (key : Str) : Option (Str × Value) :=
  match scope.find? (fun kv => (splitOnChar '#' kv.1).get? 1 == some key) with
  | some kv => some kv
  | none => scope.find? (fun kv => (splitOnChar '/' kv.1).getLastD [] == key)

/-- `readAsObject` from `utils/read`: reserved fast path first, then the
generic suffix search; found values under the exact key `type` also go
through `extractType`. -/
def readAsObject (scope : Obj) (key : Str) : Option Reader :=
  match readAsPreDefinedKey scope key with
  | none => none
  | some (some w) => some (.present w)
  | some none =>
    match getFullKey scope key with
    | none => some (.absent (notFoundKeyE key))
    | some kv =>
      if key = "type".toList then (extractType kv.2).map .present
      else some (.present (some kv.2))

/-- `readAsArray` from `utils/read`: the element at the index if defined,
else the `Not found index` failure. -/
def readAsArray (scope : List Value) (index : Nat) : Reader :=
  match scope.get? index with
  | some v => .present (some v)
  | none => .absent (notFoundIndexE index)

/-- The `read` function of `utils/read` on a defined fragment.  Arrays:
an index selects an element; a string key fails with `Not an object`
when `length > 2` and otherwise restarts on `jsonld[0]` (on the empty
array `jsonld[0]` is `undefined`, which the restarted call rejects as
`Not an object`).  Non-arrays: an index fails with `Not an array`;
non-objects fail string keys with `Not an object`; node-objects go to
`readAsObject`.  `none` = crash (possible only through `extractType`). -/
def readVal : Value → Sel → Option Reader
  | .arr l, .idx i => some (readAsArray l i)
  | .arr l, .key k =>
    if l.length > 2 then some (.absent notAnObjectE)
    else
      match l with
      | [] => some (.absent notAnObjectE)
      | v :: _ => readVal v (.key k)
  | .obj kvs, .key k => readAsObject kvs k
  | .obj _, .idx _ => some (.absent notAnArrayE)
  | .str _, .idx _ => some (.absent notAnArrayE)
  | .str _, .key _ => some (.absent notAnObjectE)
  | .num _, .idx _ => some (.absent notAnArrayE)
  | .num _, .key _ => some (.absent notAnObjectE)
  | .bool _, .idx _ => some (.absent notAnArrayE)
  | .bool _, .key _ => some (.absent notAnObjectE)

/-- `read` of `utils/read` on a possibly-undefined fragment: with an
index, `undefined` is not an array; with a key, `undefined` fails the
`typeof jsonld === 'object'` test. -/
def read (jsonld : Option Value) (sel : Sel) : Option Reader :=
  match jsonld, sel with
  | some v, _ => readVal v sel
  | none, .idx _ => some (.absent notAnArrayE)
  | none, .key _ => some (.absent notAnObjectE)

/-- `JsonLDReader.read` / `Nothing.read`: a present reader delegates to
`utils/read` on its value; a `Nothing` returns itself unchanged. -/
def Reader.read : Reader → Sel → Option Reader
  | .present v, sel => JsonLD.read v sel
  | .absent e, _ => some (.absent e)

end JsonLD

namespace JsonLD

/-- Truth of the JavaScript test `x?.length === 1` on a defined value:
the length of an array, the `length` property of an object, the length
of a string; numbers and booleans have no `length` property. -/
def lengthIsOne : Value → Bool
  | .arr l => l.length == 1
  | .obj kvs =>
    match lookupKey kvs "length".toList with
    | some (.num n) => n == 1
    | _ => false
  | .str s => s.length == 1
  | .num _ => false
  | .bool _ => false

/-- The JavaScript element access `x[0]`: first element of an array, the
property named `0` of an object, first character of a string, and
`undefined` otherwise. -/
def atIndexZero : Value → Option Value
  | .arr (v :: _) => some v
  | .arr [] => none
  | .obj kvs => lookupKey kvs "0".toList
  | .str (c :: _) => some (.str [c])
  | .str [] => none
  | .num _ => none
  | .bool _ => none

/-- The JavaScript optional property access `scope?.[k]`: defined only
when `scope` is an object with the key. -/
def optProp (scope : Option Value) (k : Str) : Option Value :=
  match scope with
  | some (.obj kvs) => lookupKey kvs k
  | _ => none

/-- The JavaScript `a ?? b` over this data model (which has no `null`
literal): `b` exactly when `a` is `undefined`. -/
def orJs (a b : Option Value) : Option Value :=
  match a with
  | some x => some x
  | none => b

/-- Truth of `['string', 'number', 'bigint', 'boolean'].includes(typeof x)`
(the model has no bigints). -/
def isPrimitive : Option Value → Bool
  | some (.str _) => true
  | some (.num _) => true
  | some (.bool _) => true
  | _ => false

/-- `JsonLDReader.getValue`: primitives are returned as-is; a value whose
`length` property is `1` is reduced to its element `x[0]` and unwrapped
by `scope?.['@value'] ?? scope?.['@id'] ?? scope`; any other defined
value is unwrapped in place by `x['@value'] ?? x['@id'] ?? x`.  The
outer `Option` is `none` when the code raises a `TypeError` (property
access on the `undefined` value); the inner `Option` is `none` when the
returned value is `undefined`. -/
def getValue (v : Option Value) : Option (Option Value) :=
  if isPrimitive v then some v
  else
    match v with
    | none => none
    | some w =>
      if lengthIsOne w then
        let scope := atIndexZero w
        some (orJs (optProp scope "@value".toList) (orJs (optProp scope "@id".toList) scope))
      else
        some (orJs (optProp (some w) "@value".toList)
          (orJs (optProp (some w) "@id".toList) (some w)))

/-- `JsonLDReader.get` / `Nothing.get`: the unwrapped value, or the
JavaScript `null` on a `Nothing` (returned `null` and `undefined` are
both modelled by `none`; no claim distinguishes them). -/
def Reader.get : Reader → Option (Option Value)
  | .present v => getValue v
  | .absent _ => some none

/-- `JsonLDReader.getOrThrow` / `Nothing.getOrThrow`, with the optional
caller-supplied error (modelled by its message): a present reader
returns the unwrapped value, a `Nothing` throws the supplied error or
its stored diagnostic. -/
def Reader.getOrThrow : Reader → Option Str → Option (Except Str (Option Value))
  | .present v, _ => (getValue v).map .ok
  | .absent e, err => some (.error (err.getD e))

/-- `JsonLDReader.getOrElse` / `Nothing.getOrElse`: a present reader
returns the unwrapped value (the default is ignored and there is no
`try`/`catch`, so a `TypeError` in `getValue` propagates as the outer
`none`); a `Nothing` returns the default. -/
def Reader.getOrElse : Reader → Value → Option (Option Value)
  | .present v, _ => getValue v
  | .absent _, d => some (some d)

/-- The JavaScript `String(x)` / `Array.prototype.join(',')` pair, as
far as this data model needs it: strings unchanged, decimal integers,
`true`/`false`, arrays joined by commas, plain objects printed as
`[object Object]`. -/
def jsValToString : Value → Str
  | .str s => s
  | .num n => (toString n).toList
  | .bool b => (cond b "true" "false").toList
  | .arr l => jsArrJoin l
  | .obj _ => "[object Object]".toList
where
  /-- Comma join of the stringified elements. -/
  jsArrJoin : List Value → Str
    | [] => []
    | [v] => jsValToString v
    | v :: w :: rest => jsValToString v ++ ',' :: jsArrJoin (w :: rest)

/-- `JsonLDReader.stringOrThrow` / `Nothing.stringOrThrow`: stringify a
primitive unwrapped value, throw `Not a string` (or the supplied error)
otherwise. -/
def Reader.stringOrThrow : Reader → Option Str → Option (Except Str Str)
  | .present v, err =>
    match getValue v with
    | none => none
    | some (some (.str s)) => some (.ok s)
    | some (some (.num n)) => some (.ok (jsValToString (.num n)))
    | some (some (.bool b)) => some (.ok (jsValToString (.bool b)))
    | some _ => some (.error (err.getD "Not a string".toList))
  | .absent e, err => some (.error (err.getD e))

/-- `JsonLDReader.stringOrElse` (also inherited by `Nothing`, whose
override returns the default directly — same result): `stringOrThrow()`
under a catch-all that substitutes the default. -/
def Reader.stringOrElse (r : Reader) (d : Str) : Str :=
  match r.stringOrThrow none with
  | some (.ok s) => s
  | _ => d

/-- Truth of membership in the JavaScript whitespace class, restricted
to the characters this model can meet. -/
def isJsSpace (c : Char) : Bool :=
  c == ' ' || c == '\t' || c == '\n' || c == '\r'

/-- Digits of a non-empty all-digit chunk as a number, else `none`. -/
def parseDigits (ds : Str) : Option Nat :=
  if ds.isEmpty then none
  else if ds.all Char.isDigit then
    some (ds.foldl (fun a c => a * 10 + (c.toNat - '0'.toNat)) 0)
  else none

/-- Model of the JavaScript `Number(string)` conversion, restricted to
the shapes the claims exercise: surrounding whitespace is trimmed, the
empty (or whitespace-only) string converts to `0`, and an optionally
signed decimal integer converts to its value.  Fractional, hexadecimal
and exponent forms, which no claim mentions, are unmodelled and map to
`none` (= NaN). -/
def strToNumber (s : Str) : Option Int :=
  let t := ((s.dropWhile isJsSpace).reverse.dropWhile isJsSpace).reverse
  match t with
  | [] => some 0
  | '+' :: ds => (parseDigits ds).map Int.ofNat
  | '-' :: ds => (parseDigits ds).map (fun n => -(Int.ofNat n))
  | ds => (parseDigits ds).map Int.ofNat

/-- Model of the JavaScript `Number(x)` conversion on an unwrapped
value: numbers unchanged, booleans to `0`/`1`, strings parsed, arrays
joined to a string and parsed (so `[]` converts to `0`), plain objects
and `undefined` to NaN (`none`). -/
def jsToNumber : Option Value → Option Int
  | none => none
  | some (.num n) => some n
  | some (.bool b) => some (cond b 1 0)
  | some (.str s) => strToNumber s
  | some (.arr l) => strToNumber (jsValToString (.arr l))
  | some (.obj _) => none

/-- `JsonLDReader.numberOrThrow` / `Nothing.numberOrThrow`: a numeric
unwrapped value is returned; otherwise `Number(value)` is returned
unless it is NaN, in which case `Not a number` (or the supplied error)
is thrown. -/
def Reader.numberOrThrow : Reader → Option Str → Option (Except Str Int)
  | .present v, err =>
    match getValue v with
    | none => none
    | some (some (.num n)) => some (.ok n)
    | some w =>
      match jsToNumber w with
      | some n => some (.ok n)
      | none => some (.error (err.getD "Not a number".toList))
  | .absent e, err => some (.error (err.getD e))

/-- `JsonLDReader.numberOrElse` (and the `Nothing` override — same
result): `numberOrThrow()` under a catch-all. -/
def Reader.numberOrElse (r : Reader) (d : Int) : Int :=
  match r.numberOrThrow none with
  | some (.ok n) => n
  | _ => d

/-- `JsonLDReader.booleanOrThrow` / `Nothing.booleanOrThrow`: booleans
as-is; the strings `true`/`false`/`0`/`1` and the numbers `0`/`1` by the
table; anything else throws `Not a boolean` (or the supplied error). -/
def Reader.booleanOrThrow : Reader → Option Str → Option (Except Str Bool)
  | .present v, err =>
    match getValue v with
    | none => none
    | some (some (.bool b)) => some (.ok b)
    | some (some (.str s)) =>
      if s = "true".toList ∨ s = "false".toList ∨ s = "0".toList ∨ s = "1".toList then
        some (.ok (decide (s = "true".toList ∨ s = "1".toList)))
      else some (.error (err.getD "Not a boolean".toList))
    | some (some (.num n)) =>
      if n = 0 ∨ n = 1 then some (.ok (decide (n = 1)))
      else some (.error (err.getD "Not a boolean".toList))
    | some _ => some (.error (err.getD "Not a boolean".toList))
  | .absent e, err => some (.error (err.getD e))

/-- `JsonLDReader.booleanOrElse` (and the `Nothing` override — same
result): `booleanOrThrow()` under a catch-all. -/
def Reader.booleanOrElse (r : Reader) (d : Bool) : Bool :=
  match r.booleanOrThrow none with
  | some (.ok b) => b
  | _ => d

/-- `JsonLDReader.of`: wrap a value. -/
def of (v : Value) : Reader := .present (some v)

/-- The public `value` field: the wrapped fragment; a `Nothing` was
built by `super()` and its field is `undefined`. -/
def Reader.value : Reader → Option Value
  | .present v => v
  | .absent _ => none

/-- `JsonLDReader.strict` (inherited unchanged by `Nothing`):
`JsonLDReader.of(this.value)` — always a plain present reader. -/
def Reader.strict (r : Reader) : Reader := .present r.value

/-- The public `length` field: the element count for arrays, else `1`. -/
def Reader.length (r : Reader) : Nat :=
  match r.value with
  | some (.arr l) => l.length
  | _ => 1

end JsonLD

namespace JsonLD

theorem splitOnChar_ne_nil (c : Char) (s : Str) : splitOnChar c s ≠ [] := by
  cases s with
  | nil => simp [splitOnChar]
  | cons x xs =>
    simp only [splitOnChar]
    cases h : splitOnChar c xs with
    | nil => simp
    | cons y ys =>
      by_cases hx : x = c <;> simp [hx]

theorem splitOnChar_of_not_mem {c : Char} {s : Str} (h : c ∉ s) : splitOnChar c s = [s] := by
  induction s with
  | nil => rfl
  | cons x xs ih =>
    simp only [List.mem_cons, not_or] at h
    simp only [splitOnChar, ih h.2]
    simp [Ne.symm h.1]

theorem splitOnChar_append_cons {c : Char} {a : Str} (b : Str) (h : c ∉ a) :
    splitOnChar c (a ++ c :: b) = a :: splitOnChar c b := by
  induction a with
  | nil =>
    simp only [List.nil_append, splitOnChar]
    cases hb : splitOnChar c b with
    | nil => exact absurd hb (splitOnChar_ne_nil c b)
    | cons y ys => simp
  | cons x xs ih =>
    simp only [List.mem_cons, not_or] at h
    rw [List.cons_append, splitOnChar, ih h.2]
    simp [Ne.symm h.1]

theorem length_splitOnChar (c : Char) (s : Str) :
    (splitOnChar c s).length = s.count c + 1 := by
  induction s with
  | nil => simp [splitOnChar]
  | cons x xs ih =>
    simp only [splitOnChar]
    cases h : splitOnChar c xs with
    | nil => exact absurd h (splitOnChar_ne_nil c xs)
    | cons y ys =>
      rw [h] at ih
      by_cases hx : x = c
      · subst hx
        simp_all [List.count_cons]
      · simp_all [List.count_cons, hx]

theorem getLastD_of_ne_nil {α : Type} {l : List α} (h : l ≠ []) (d d' : α) :
    l.getLastD d = l.getLastD d' := by
  cases l with
  | nil => exact absurd rfl h
  | cons x xs => simp only [List.getLastD_cons]

theorem getLastD_splitOnChar_append {c : Char} (a : Str) {b : Str} (h : c ∉ b) :
    (splitOnChar c (a ++ c :: b)).getLastD [] = b := by
  induction a with
  | nil =>
    simp only [List.nil_append, splitOnChar]
    cases hb : splitOnChar c b with
    | nil => exact absurd hb (splitOnChar_ne_nil c b)
    | cons y ys =>
      rw [splitOnChar_of_not_mem h] at hb
      obtain ⟨rfl, rfl⟩ : y = b ∧ ys = [] := by simpa using hb.symm
      simp
  | cons x xs ih =>
    have hlen : (splitOnChar c (xs ++ c :: b)).length ≥ 2 := by
      rw [length_splitOnChar]
      have : c ∈ xs ++ c :: b := by simp
      have := List.count_pos_iff.mpr this
      omega
    simp only [List.cons_append, splitOnChar]
    cases hr : splitOnChar c (xs ++ c :: b) with
    | nil => exact absurd hr (splitOnChar_ne_nil c _)
    | cons y ys =>
      rw [hr] at ih hlen
      have hys : ys ≠ [] := by
        intro hh
        subst hh
        simp at hlen
      by_cases hx : x = c
      · simpa [hx, List.getLastD_cons] using ih
      · simp only [hx, if_false]
        rw [List.getLastD_cons] at ih ⊢
        rw [getLastD_of_ne_nil hys (x :: y) y]
        exact ih

end JsonLD

namespace JsonLD

/-- Claim C7: Absent is absorbing: if `R.read(m)` is Absent, then reading
anything further from it returns the same Absent reader with the same
diagnostic. -/
theorem claim_C7 (r : Reader) (m x : Sel) (e : Str)
    (h : r.read m = some (.absent e)) :
    (r.read m).bind (fun r2 => r2.read x) = some (.absent e) := by
  rw [h]
  rfl

/-- Witness for C7: a string read on a number fragment is Absent
(`Not an object`), and a further index read is the same Absent reader. -/
theorem claim_C7_wit :
    Reader.read (.present (some (.num 1))) (.key ['a']) = some (.absent notAnObjectE) ∧
    (Reader.read (.present (some (.num 1))) (.key ['a'])).bind
      (fun r2 => r2.read (.idx 0)) = some (.absent notAnObjectE) :=
  ⟨rfl, claim_C7 (.present (some (.num 1))) (.key ['a']) (.idx 0) notAnObjectE rfl⟩

/-- Claim C2 (against the code): on a fragment that is a 2-element
sequence, a string-key read silently descends into the first element
instead of failing with `Not an object` (the guard in `utils/read` is
`length > 2`); the failure only happens from length 3 on. -/
theorem claim_C2 :
    read (some (.arr [.obj [("a#k".toList, .num 3)], .obj [("a#k".toList, .num 4)]]))
        (.key "k".toList) = some (.present (some (.num 3))) ∧
    read (some (.arr [.obj [("a#k".toList, .num 3)], .obj [("a#k".toList, .num 4)],
        .obj [("a#k".toList, .num 5)]])) (.key "k".toList) = some (.absent notAnObjectE) :=
  ⟨rfl, rfl⟩

theorem numberOrThrow_present {v w : Option Value} {e : Option Str}
    (h : getValue v = some w) :
    Reader.numberOrThrow (.present v) e =
      match jsToNumber w with
      | some n => some (.ok n)
      | none => some (.error (e.getD "Not a number".toList)) := by
  rcases w with _ | u
  · simp [Reader.numberOrThrow, h, jsToNumber]
  · rcases u with s | n | b | l | kvs <;> simp [Reader.numberOrThrow, h, jsToNumber]

/-- Claim C10: `numberOrThrow` succeeds exactly when the JavaScript
numeric conversion of the unwrapped value is not NaN; in particular an
empty sequence yields `0`, booleans yield `0`/`1`, and a whitespace-only
string yields `0`. -/
theorem claim_C10 :
    Reader.numberOrThrow (.present (some (.arr []))) none = some (.ok 0) ∧
    Reader.numberOrThrow (.present (some (.bool true))) none = some (.ok 1) ∧
    Reader.numberOrThrow (.present (some (.bool false))) none = some (.ok 0) ∧
    Reader.numberOrThrow (.present (some (.str "   ".toList))) none = some (.ok 0) ∧
    (∀ (v w : Option Value) (e : Option Str), getValue v = some w →
      ((∃ n, Reader.numberOrThrow (.present v) e = some (.ok n)) ↔ jsToNumber w ≠ none) ∧
      (jsToNumber w = none →
        Reader.numberOrThrow (.present v) e = some (.error (e.getD "Not a number".toList)))) := by
  refine ⟨rfl, rfl, rfl, rfl, ?_⟩
  intro v w e h
  rw [numberOrThrow_present h]
  rcases hj : jsToNumber w with _ | n <;> simp

/-- Witness for C10: the unwrapped string `yes` has NaN conversion, so
`numberOrThrow` throws `Not a number` on it. -/
theorem claim_C10_wit :
    getValue (some (.str "yes".toList)) = some (some (.str "yes".toList)) ∧
    jsToNumber (some (.str "yes".toList)) = none ∧
    Reader.numberOrThrow (.present (some (.str "yes".toList))) none
      = some (.error "Not a number".toList) :=
  ⟨rfl, rfl,
    (claim_C10.2.2.2.2 (some (.str "yes".toList)) (some (.str "yes".toList)) none rfl).2 rfl⟩

/-- Claim C6: the `booleanOrThrow` coercion table: `true`, `'true'`,
`'1'`, `1` give `true`; `false`, `'false'`, `'0'`, `0` give `false`;
every other unwrapped value throws `Not a boolean` or the caller's
error. -/
theorem claim_C6 :
    ∀ (v w : Option Value) (e : Option Str), getValue v = some w →
      ((Reader.booleanOrThrow (.present v) e = some (.ok true)) ↔
        (w = some (.bool true) ∨ w = some (.str "true".toList) ∨
         w = some (.str "1".toList) ∨ w = some (.num 1))) ∧
      ((Reader.booleanOrThrow (.present v) e = some (.ok false)) ↔
        (w = some (.bool false) ∨ w = some (.str "false".toList) ∨
         w = some (.str "0".toList) ∨ w = some (.num 0))) ∧
      (¬(w = some (.bool true) ∨ w = some (.str "true".toList) ∨
         w = some (.str "1".toList) ∨ w = some (.num 1)) →
       ¬(w = some (.bool false) ∨ w = some (.str "false".toList) ∨
         w = some (.str "0".toList) ∨ w = some (.num 0)) →
        Reader.booleanOrThrow (.present v) e = some (.error (e.getD "Not a boolean".toList))) := by
  intro v w e h
  rcases w with _ | u
  · simp [Reader.booleanOrThrow, h]
  · rcases u with s | n | b | l | kvs
    · by_cases hT : s = "true".toList <;> by_cases hF : s = "false".toList <;>
        by_cases h0 : s = "0".toList <;> by_cases h1 : s = "1".toList <;>
        simp_all [Reader.booleanOrThrow]
    · by_cases h0 : n = 0 <;> by_cases h1 : n = 1 <;> simp_all [Reader.booleanOrThrow]
    · cases b <;> simp [Reader.booleanOrThrow, h]
    · simp [Reader.booleanOrThrow, h]
    · simp [Reader.booleanOrThrow, h]

/-- Witness for C6: the unwrapped string `1` coerces to `true`. -/
theorem claim_C6_wit :
    getValue (some (.str "1".toList)) = some (some (.str "1".toList)) ∧
    Reader.booleanOrThrow (.present (some (.str "1".toList))) none = some (.ok true) :=
  ⟨rfl,
    (claim_C6 (some (.str "1".toList)) (some (.str "1".toList)) none rfl).1.mpr
      (Or.inr (Or.inr (Or.inl rfl)))⟩

/-- Claim C4: type extraction recurses on the first element of a
sequence, returns the `@value` of a wrapper object, takes the segment
after the `#` of a string with exactly one `#`, else the segment after
the last `/` of a string containing `/`, else the string unchanged; so
`read('type').get()` compacts both `…ns#Person` and `…/Person` to
`Person`. -/
theorem claim_C4 :
    (∀ (v : Value) (vs : List Value), extractType (.arr (v :: vs)) = extractType v) ∧
    (∀ (kvs : Obj) (x : Value), lookupKey kvs "@value".toList = some x →
      extractType (.obj kvs) = some (some x)) ∧
    (∀ a b : Str, '#' ∉ a → '#' ∉ b →
      extractType (.str (a ++ '#' :: b)) = some (some (.str b))) ∧
    (∀ s a b : Str, s.count '#' ≠ 1 → s = a ++ '/' :: b → '/' ∉ b →
      extractType (.str s) = some (some (.str b))) ∧
    (∀ s : Str, '#' ∉ s → '/' ∉ s → extractType (.str s) = some (some (.str s))) ∧
    (read (some (.obj [("@type".toList, .str "https://example.org/ns#Person".toList)]))
        (.key "type".toList)).bind Reader.get = some (some (.str "Person".toList)) ∧
    (read (some (.obj [("@type".toList, .str "https://example.org/Person".toList)]))
        (.key "type".toList)).bind Reader.get = some (some (.str "Person".toList)) := by
  refine ⟨fun v vs => rfl, ?_, ?_, ?_, ?_, rfl, rfl⟩
  · intro kvs x h
    have he : extractType (.obj kvs) = some (lookupKey kvs "@value".toList) := rfl
    rw [he, h]
  · intro a b ha hb
    have h2 : splitOnChar '#' (a ++ '#' :: b) = [a, b] := by
      rw [splitOnChar_append_cons b ha, splitOnChar_of_not_mem hb]
    simp [extractType, extractTypeStr, h2]
  · intro s a b hcount hs hb
    subst hs
    have hexists : '/' ∈ a ++ '/' :: b := by simp
    have hpos := List.count_pos_iff.mpr hexists
    have hhash : (splitOnChar '#' (a ++ '/' :: b)).length ≠ 2 := by
      rw [length_splitOnChar]
      omega
    have hslash : (splitOnChar '/' (a ++ '/' :: b)).length ≠ 1 := by
      rw [length_splitOnChar]
      omega
    have hlast := getLastD_splitOnChar_append a hb
    rw [List.getLastD_eq_getLast?] at hlast
    simp [extractType, extractTypeStr, hhash, hslash, hlast]
  · intro s h1 h2
    simp [extractType, extractTypeStr, splitOnChar_of_not_mem h1, splitOnChar_of_not_mem h2]

/-- Witness for C4: `ns#Person` splits at its single `#` to `Person`. -/
theorem claim_C4_wit :
    ('#' ∉ "ns".toList) ∧ ('#' ∉ "Person".toList) ∧
    extractType (.str ("ns".toList ++ '#' :: "Person".toList))
      = some (some (.str "Person".toList)) :=
  ⟨by decide, by decide, claim_C4.2.2.1 "ns".toList "Person".toList (by decide) (by decide)⟩

end JsonLD

namespace JsonLD

/-- Counterexample to C1 as stated: in the node-object with single key
`a#b#c`, no key has `b` as its segment after the last `#` (that segment
is `c`) nor as its segment after the last `/`, so the claim requires
`read('b')` to be Absent with `Not found key: b`; the code instead
resolves `b` (the key's `split('#')[1]` chunk) and returns a present
reader. -/
theorem claim_C1_cx :
    (splitOnChar '#' "a#b#c".toList).getLastD [] ≠ "b".toList ∧
    (splitOnChar '/' "a#b#c".toList).getLastD [] ≠ "b".toList ∧
    read (some (.obj [("a#b#c".toList, .num 7)])) (.key "b".toList)
      = some (.present (some (.num 7))) :=
  ⟨by decide, by decide, rfl⟩

/-- Claim C1 as amended: for a non-reserved key the generic path picks
the first key (insertion order) whose second `#`-chunk — the segment
after the *first* `#`, not the last — equals the short key; if none, the
first key whose segment after the last `/` (the whole key when it has no
`/`) equals it; else the Absent reader with `Not found key: <key>`. -/
theorem claim_C1 (kvs : Obj) (k : Str)
    (h : k ∉ ["type".toList, "@type".toList, "id".toList, "@id".toList,
      "value".toList, "@value".toList]) :
    read (some (.obj kvs)) (.key k) =
      match kvs.find? (fun kv => (splitOnChar '#' kv.1).get? 1 == some k) with
      | some kv => some (.present (some kv.2))
      | none =>
        match kvs.find? (fun kv => (splitOnChar '/' kv.1).getLastD [] == k) with
        | some kv => some (.present (some kv.2))
        | none => some (.absent ("Not found key: ".toList ++ k)) := by
  simp only [List.mem_cons, List.not_mem_nil, or_false, not_or] at h
  obtain ⟨h1, h2, h3, h4, h5, h6⟩ := h
  have hpre : readAsPreDefinedKey kvs k = some none := by
    unfold readAsPreDefinedKey
    rw [if_neg (by tauto), if_neg (by tauto), if_neg (by tauto)]
  show readAsObject kvs k = _
  unfold readAsObject
  rw [hpre]
  unfold getFullKey
  rcases hf : kvs.find? (fun kv => (splitOnChar '#' kv.1).get? 1 == some k) with _ | kv
  · rcases hg : kvs.find? (fun kv => (splitOnChar '/' kv.1).getLastD [] == k) with _ | kv2
    · simp only [hf, hg, notFoundKeyE]
    · simp only [hf, hg, if_neg h1]
  · simp only [hf, if_neg h1]

/-- Witness for C1 (amended): `foo` is not reserved, and on a node whose
only key is `ns#foo`, the generic path finds it. -/
theorem claim_C1_wit :
    "foo".toList ∉ ["type".toList, "@type".toList, "id".toList, "@id".toList,
      "value".toList, "@value".toList] ∧
    read (some (.obj [("ns#foo".toList, .num 1)])) (.key "foo".toList)
      = some (.present (some (.num 1))) :=
  ⟨by decide, (claim_C1 [("ns#foo".toList, .num 1)] "foo".toList (by decide)).trans rfl⟩

/-- Claim C5: when the canonical `@id` / `@type` / `@value` field is
present in the node-object, reading by the short spelling and by the
`@`-spelling produce the same `get()` result. -/
theorem claim_C5 (kvs : Obj) :
    (∀ v, lookupKey kvs "@id".toList = some v →
      (read (some (.obj kvs)) (.key "id".toList)).bind Reader.get
        = (read (some (.obj kvs)) (.key "@id".toList)).bind Reader.get) ∧
    (∀ t, lookupKey kvs "@type".toList = some t →
      (read (some (.obj kvs)) (.key "type".toList)).bind Reader.get
        = (read (some (.obj kvs)) (.key "@type".toList)).bind Reader.get) ∧
    (∀ u, lookupKey kvs "@value".toList = some u →
      (read (some (.obj kvs)) (.key "value".toList)).bind Reader.get
        = (read (some (.obj kvs)) (.key "@value".toList)).bind Reader.get) := by
  refine ⟨?_, ?_, ?_⟩
  · intro v h
    have hid : readId kvs = some v := by
      unfold readId
      rw [h]
    show (readAsObject kvs "id".toList).bind Reader.get
      = (readAsObject kvs "@id".toList).bind Reader.get
    unfold readAsObject readAsPreDefinedKey
    rw [if_neg (by decide), if_pos (by decide), if_neg (by decide), if_pos (by decide), hid]
  · intro t h
    have ht : readType kvs = (extractType t).map some := by
      unfold readType
      rw [h]
    show (readAsObject kvs "type".toList).bind Reader.get
      = (readAsObject kvs "@type".toList).bind Reader.get
    unfold readAsObject readAsPreDefinedKey
    rw [if_pos (by decide), if_pos (by decide), ht]
    rcases extractType t with _ | w <;> rfl
  · intro u h
    have hv : readValue kvs = some u := by
      unfold readValue
      rw [h]
    show (readAsObject kvs "value".toList).bind Reader.get
      = (readAsObject kvs "@value".toList).bind Reader.get
    unfold readAsObject readAsPreDefinedKey
    rw [if_neg (by decide), if_neg (by decide), if_pos (by decide),
      if_neg (by decide), if_neg (by decide), if_pos (by decide), hv]

/-- Witness for C5: on a node carrying all three canonical fields, the
`id` spelling and the `@id` spelling agree. -/
theorem claim_C5_wit :
    lookupKey [("@id".toList, Value.str "u".toList), ("@type".toList, Value.str "T".toList),
      ("@value".toList, Value.num 3)] "@id".toList = some (.str "u".toList) ∧
    (read (some (.obj [("@id".toList, Value.str "u".toList),
        ("@type".toList, Value.str "T".toList), ("@value".toList, Value.num 3)]))
      (.key "id".toList)).bind Reader.get
    = (read (some (.obj [("@id".toList, Value.str "u".toList),
        ("@type".toList, Value.str "T".toList), ("@value".toList, Value.num 3)]))
      (.key "@id".toList)).bind Reader.get :=
  ⟨rfl, (claim_C5 [("@id".toList, Value.str "u".toList), ("@type".toList, Value.str "T".toList),
      ("@value".toList, Value.num 3)]).1 (.str "u".toList) rfl⟩

end JsonLD

namespace JsonLD

/-- Counterexample to C3 as stated: the fragment is an object (not a
sequence) whose `@value` field is present, so the claim's direct
object-unwrap rule demands `5`; but because the object's `length` member
is the number `1`, `getValue` takes the sequence branch, reads the
missing `0` property, and `get()` returns `undefined`. -/
theorem claim_C3_cx :
    Reader.get (.present (some (.obj [("length".toList, .num 1), ("@value".toList, .num 5)])))
      = some none ∧
    lookupKey [("length".toList, Value.num 1), ("@value".toList, Value.num 5)] "@value".toList
      = some (.num 5) ∧
    (some none : Option (Option Value)) ≠ some (some (.num 5)) :=
  ⟨rfl, rfl, by simp⟩

/-- Claim C3 as amended: `get`, `getOrThrow` and `getOrElse` all return
the unwrapped value on a present reader; primitives are returned as-is;
the branch keyed on the JavaScript test `length === 1` (a sequence of
length 1, or an object whose `length` member is the number `1`) unwraps
the element at index `0` by `@value`, else `@id`, else the element; any
other value is unwrapped in place by the same rule. -/
theorem claim_C3 :
    (∀ (v w : Option Value) (e : Option Str) (d : Value), getValue v = some w →
      Reader.get (.present v) = some w ∧
      Reader.getOrThrow (.present v) e = some (.ok w) ∧
      Reader.getOrElse (.present v) d = some w) ∧
    (∀ v : Value, isPrimitive (some v) = true → getValue (some v) = some (some v)) ∧
    (∀ x : Value, getValue (some (.arr [x])) =
      some (orJs (optProp (some x) "@value".toList)
        (orJs (optProp (some x) "@id".toList) (some x)))) ∧
    (∀ l : List Value, l.length ≠ 1 → getValue (some (.arr l)) = some (some (.arr l))) ∧
    (∀ kvs : Obj, lookupKey kvs "length".toList ≠ some (.num 1) →
      getValue (some (.obj kvs)) =
        some (orJs (lookupKey kvs "@value".toList)
          (orJs (lookupKey kvs "@id".toList) (some (.obj kvs))))) ∧
    (∀ kvs : Obj, lookupKey kvs "length".toList = some (.num 1) →
      getValue (some (.obj kvs)) =
        some (orJs (optProp (lookupKey kvs "0".toList) "@value".toList)
          (orJs (optProp (lookupKey kvs "0".toList) "@id".toList)
            (lookupKey kvs "0".toList)))) := by
  refine ⟨?_, ?_, ?_, ?_, ?_, ?_⟩
  · intro v w e d h
    exact ⟨by simp [Reader.get, h], by simp [Reader.getOrThrow, h],
      by simp [Reader.getOrElse, h]⟩
  · intro v hp
    simp [getValue, hp]
  · intro x
    rfl
  · intro l hl
    have hli : lengthIsOne (.arr l) = false := by
      simp [lengthIsOne]
      exact hl
    simp [getValue, isPrimitive, hli, optProp, orJs]
  · intro kvs h
    have hli : lengthIsOne (.obj kvs) = false := by
      simp only [lengthIsOne]
      rcases hL : lookupKey kvs "length".toList with _ | u
      · rfl
      · rcases u with s | n | b | l | kk
        · rfl
        · have hn : n ≠ 1 := fun hh => h (by rw [hL, hh])
          simp [hn]
        · rfl
        · rfl
        · rfl
    simp [getValue, isPrimitive, hli, optProp]
  · intro kvs h
    have hli : lengthIsOne (.obj kvs) = true := by
      simp only [lengthIsOne, h]
      rfl
    simp [getValue, isPrimitive, hli, atIndexZero]

/-- Witness for C3 (amended): a primitive numeric fragment unwraps to
itself through `getOrElse`. -/
theorem claim_C3_wit :
    getValue (some (.num 3)) = some (some (.num 3)) ∧
    Reader.getOrElse (.present (some (.num 3))) (.num 0) = some (some (.num 3)) :=
  ⟨rfl, (claim_C3.1 (some (.num 3)) (some (.num 3)) none (.num 0) rfl).2.2⟩

/-- Counterexample to C8 as stated: reading `type` from a node whose
`@type` is a wrapper object without `@value` produces a *present* reader
whose value is `undefined`; `getOrElse` on it has no `try`/`catch`, so
`getValue` raises a `TypeError` (the `none` result) instead of
returning the default. -/
theorem claim_C8_cx :
    read (some (.obj [("@type".toList, .obj [])])) (.key "type".toList)
      = some (.present none) ∧
    Reader.getOrElse (.present none) (.num 7) = none :=
  ⟨rfl, rfl⟩

/-- Claim C8 as amended: the three typed `*OrElse` calls never raise —
on any reader they return either the default or the value their
`*OrThrow` companion succeeds with, and on an Absent reader they return
the default; `getOrElse` returns the default on an Absent reader, but on
a present reader it performs no fallback: it returns the unwrapped value
whenever `getValue` does not raise. -/
theorem claim_C8 :
    (∀ (e : Str) (d : Value), Reader.getOrElse (.absent e) d = some (some d)) ∧
    (∀ (e : Str) (d : Str), Reader.stringOrElse (.absent e) d = d) ∧
    (∀ (e : Str) (d : Int), Reader.numberOrElse (.absent e) d = d) ∧
    (∀ (e : Str) (d : Bool), Reader.booleanOrElse (.absent e) d = d) ∧
    (∀ (r : Reader) (d : Str),
      Reader.stringOrElse r d = d ∨ r.stringOrThrow none = some (.ok (r.stringOrElse d))) ∧
    (∀ (r : Reader) (d : Int),
      Reader.numberOrElse r d = d ∨ r.numberOrThrow none = some (.ok (r.numberOrElse d))) ∧
    (∀ (r : Reader) (d : Bool),
      Reader.booleanOrElse r d = d ∨ r.booleanOrThrow none = some (.ok (r.booleanOrElse d))) ∧
    (∀ (v w : Option Value) (d : Value), getValue v = some w →
      Reader.getOrElse (.present v) d = some w) := by
  refine ⟨fun e d => rfl, fun e d => rfl, fun e d => rfl, fun e d => rfl, ?_, ?_, ?_, ?_⟩
  · intro r d
    rcases hs : r.stringOrThrow none with _ | x
    · left
      simp [Reader.stringOrElse, hs]
    · rcases x with er | s
      · left
        simp [Reader.stringOrElse, hs]
      · right
        simp [Reader.stringOrElse, hs]
  · intro r d
    rcases hs : r.numberOrThrow none with _ | x
    · left
      simp [Reader.numberOrElse, hs]
    · rcases x with er | n
      · left
        simp [Reader.numberOrElse, hs]
      · right
        simp [Reader.numberOrElse, hs]
  · intro r d
    rcases hs : r.booleanOrThrow none with _ | x
    · left
      simp [Reader.booleanOrElse, hs]
    · rcases x with er | b
      · left
        simp [Reader.booleanOrElse, hs]
      · right
        simp [Reader.booleanOrElse, hs]
  · intro v w d h
    simp [Reader.getOrElse, h]

/-- Witness for C8 (amended): on a defined primitive fragment,
`getOrElse` returns the unwrapped value, not the default. -/
theorem claim_C8_wit :
    getValue (some (.str "x".toList)) = some (some (.str "x".toList)) ∧
    Reader.getOrElse (.present (some (.str "x".toList))) (.num 0)
      = some (some (.str "x".toList)) :=
  ⟨rfl, claim_C8.2.2.2.2.2.2.2 (some (.str "x".toList)) (some (.str "x".toList)) (.num 0) rfl⟩

/-- Counterexample to C9 as stated: `strict()` is part of the public
surface, and applied to the Absent reader produced by a failed read it
calls `JsonLDReader.of(this.value)` with the `Nothing`'s `undefined`
value — producing a Present reader whose `value` is `undefined`. -/
theorem claim_C9_cx :
    read (some (.obj [])) (.key "x".toList)
      = some (.absent ("Not found key: ".toList ++ "x".toList)) ∧
    Reader.strict (.absent ("Not found key: ".toList ++ "x".toList)) = .present none :=
  ⟨rfl, rfl⟩

theorem readAsPreDefinedKey_founded_undef {kvs : Obj} {k : Str}
    (h : readAsPreDefinedKey kvs k = some (some none)) :
    k = "type".toList ∨ k = "@type".toList := by
  unfold readAsPreDefinedKey at h
  by_cases h1 : k = "type".toList ∨ k = "@type".toList
  · exact h1
  · rw [if_neg h1] at h
    by_cases h2 : k = "id".toList ∨ k = "@id".toList
    · rw [if_pos h2] at h
      rcases hd : readId kvs with _ | v <;> rw [hd] at h <;> simp at h
    · rw [if_neg h2] at h
      by_cases h3 : k = "value".toList ∨ k = "@value".toList
      · rw [if_pos h3] at h
        rcases hd : readValue kvs with _ | v <;> rw [hd] at h <;> simp at h
      · rw [if_neg h3] at h
        simp at h

theorem readAsObject_present_undef {kvs : Obj} {k : Str}
    (h : readAsObject kvs k = some (.present none)) :
    k = "type".toList ∨ k = "@type".toList := by
  unfold readAsObject at h
  rcases hp : readAsPreDefinedKey kvs k with _ | o
  · simp [hp] at h
  · rcases o with _ | w
    · simp only [hp] at h
      rcases hg : getFullKey kvs k with _ | kv
      · simp [hg] at h
      · simp only [hg] at h
        by_cases ht : k = "type".toList
        · exact Or.inl ht
        · rw [if_neg ht] at h
          simp at h
    · simp only [hp] at h
      simp only [Option.some.injEq, Reader.present.injEq] at h
      rw [h] at hp
      exact readAsPreDefinedKey_founded_undef hp

/-- Claim C9 as amended: `of` always wraps a defined value; an Absent
reader holds no data (its `value` is undefined) together with its one
stored diagnostic; but `strict()` of an Absent reader is a Present
reader with undefined value, and a read step can produce a Present
reader with undefined value — though only for the keys `type` and
`@type`, whose type extraction can return `undefined`. -/
theorem claim_C9 :
    (∀ v : Value, of v = .present (some v)) ∧
    (∀ e : Str, Reader.value (.absent e) = none) ∧
    (∀ e : Str, Reader.strict (.absent e) = .present none) ∧
    (∀ (v : Value) (sel : Sel), readVal v sel = some (.present none) →
      sel = .key "type".toList ∨ sel = .key "@type".toList) := by
  refine ⟨fun v => rfl, fun e => rfl, fun e => rfl, ?_⟩
  intro v sel h
  induction v, sel using readVal.induct with
  | case1 l i =>
    simp only [readVal] at h
    unfold readAsArray at h
    rcases hi : l.get? i with _ | x <;> rw [hi] at h <;> simp at h
  | case2 l k hlen =>
    rcases l with _ | ⟨x, xs⟩
    · simp at hlen
    · simp only [readVal] at h
      rw [if_pos hlen] at h
      simp at h
  | case3 k hnil => simp [readVal] at h
  | case4 k v tail hlen ih =>
    simp only [readVal, if_neg hlen] at h
    exact ih h
  | case5 kvs k =>
    simp only [readVal] at h
    rcases readAsObject_present_undef h with hh | hh <;> simp [hh]
  | case6 fields i => simp [readVal] at h
  | case7 s i => simp [readVal] at h
  | case8 s k => simp [readVal] at h
  | case9 n i => simp [readVal] at h
  | case10 n k => simp [readVal] at h
  | case11 b i => simp [readVal] at h
  | case12 b k => simp [readVal] at h

/-- Witness for C9 (amended): the present-with-undefined reader reached
by reading `type` from a node whose `@type` is an empty wrapper object
indeed came from a `type` read. -/
theorem claim_C9_wit :
    readVal (.obj [("@type".toList, .obj [])]) (.key "type".toList) = some (.present none) ∧
    (Sel.key "type".toList = Sel.key "type".toList ∨
     Sel.key "type".toList = Sel.key "@type".toList) :=
  ⟨rfl, claim_C9.2.2.2 (.obj [("@type".toList, .obj [])]) (.key "type".toList) rfl⟩

end JsonLD
